import Mathlib

/-!
Verification of `tanstack-table-virtual-ellipsis` (src/src/App.tsx) against its
natural-language specification.

The file shallowly embeds the bespoke logic of `App.tsx`:
the `Ellipsis` overflow-detection component, the `generateEmployees` data
generator, the status-cell color map, the virtualizer padding arithmetic, and
the sort-toggle wiring.  DOM measurements (scrollWidth / clientWidth) are
modelled as natural numbers, JS numbers used in offset arithmetic as integers,
React state as explicit state passing, and the external collaborators (faker,
the TanStack table state engine) as deterministic Lean functions, modelled from
the spec where the repository does not contain their code.
-/

namespace App

/- ======================= Ellipsis component ======================= -/

/-- The measurable geometry of the DOM element behind `textRef`:
`scrollWidth` is the intrinsic content width, `clientWidth` the visible
width.  Both are non-negative integers in the DOM APIs. -/
structure Element where
  scrollWidth : Nat
  clientWidth : Nat
deriving DecidableEq

/-- `useState(false)` on line 35: the initial value of `isOverflowing`. -/
def initialIsOverflowing : Bool := false

/-- `checkOverflow` (App.tsx lines 39-44): if `textRef.current` is attached
(`some el`), set `isOverflowing` to `scrollWidth > clientWidth`; if no element
is attached (`none`), the guard `if (textRef.current)` skips the update and
the previous state is kept. -/
def checkOverflow (ref : Option Element) (isOverflowing : Bool) : Bool :=
  match ref with
  | some el => decide (el.scrollWidth > el.clientWidth)
  | none => isOverflowing

/-- The render output of `Ellipsis` (lines 62-85): either the bare text
`div`, or that `div` wrapped in a `Tooltip` whose `label` is the children. -/
inductive Rendered where
  | plain (text : String)
  | tooltip (label : String) (text : String)
deriving DecidableEq

/-- `Ellipsis` render (lines 76-84): when `isOverflowing` is false return the
content alone; otherwise wrap it in `<Tooltip label={children}>`. -/
def ellipsisRender (children : String) (isOverflowing : Bool) : Rendered :=
  if !isOverflowing then
    .plain children
  else
    .tooltip children children

/-- The events on which the source re-runs `checkOverflow`:
the effect runs on mount and again whenever a dependency in
`[children, columnWidth]` changes (line 60); the `ResizeObserver` created on
line 49 calls `checkOverflow` when the observed element is resized; the window
`resize` listener added on line 54 calls `checkOverflow` on window resize. -/
inductive EllipsisEvent where
  | mount
  | childrenChanged
  | columnWidthChanged
  | elementResize
  | windowResize
deriving DecidableEq

/-- The `Ellipsis` state transition on each wired event.  Every event's
registered handler is `checkOverflow` (lines 46, 49, 54). -/
def ellipsisStep (ref : Option Element) (isOverflowing : Bool) :
    EllipsisEvent → Bool
  | .mount => checkOverflow ref isOverflowing
  | .childrenChanged => checkOverflow ref isOverflowing
  | .columnWidthChanged => checkOverflow ref isOverflowing
  | .elementResize => checkOverflow ref isOverflowing
  | .windowResize => checkOverflow ref isOverflowing

/-- The side-effect resources held by one mounted `Ellipsis` instance:
whether the `ResizeObserver` is connected, how many elements it observes,
and how many window `resize` listeners the instance has registered. -/
structure EffectResources where
  observerConnected : Bool
  observedElements : Nat
  windowListeners : Nat
deriving DecidableEq

/-- The resource state before the effect runs: nothing registered. -/
def noResources : EffectResources :=
  { observerConnected := false, observedElements := 0, windowListeners := 0 }

/-- The effect body (lines 48-54): create one `ResizeObserver`, observe
`textRef.current` when it is attached, and add one window `resize`
listener. -/
def effectSetup (ref : Option Element) : EffectResources :=
  { observerConnected := true
    observedElements := if ref.isSome then 1 else 0
    windowListeners := 1 }

/-- The effect cleanup (lines 56-59): `resizeObserver.disconnect()` drops the
observer and everything it observes, and `removeEventListener` removes the one
listener that was added. -/
def effectCleanup (r : EffectResources) : EffectResources :=
  { observerConnected := false
    observedElements := 0
    windowListeners := r.windowListeners - 1 }

/- ======================= Data generation ======================= -/

/-- An `Employee` record (App.tsx lines 90-98).  The `status` field is typed
`EmployeeStatus = Active | On Leave | Remote` in the source; here it is carried
as a `String` so that the status cell's lookup can be analysed on arbitrary
runtime values as well. -/
structure Employee where
  id : Nat
  name : String
  email : String
  role : String
  department : String
  description : String
  status : String
deriving DecidableEq

instance : Inhabited Employee :=
  ⟨{ id := 0, name := "", email := "", role := "", department := "",
     description := "", status := "" }⟩

/-- Modelled from the spec: the synthetic data source (`@faker-js/faker`) is
an external collaborator whose code is not in this repository; the spec
describes it as a "deterministic pseudo-random record generator, seeded for
reproducibility".  We model its mutable internal state as a single `Nat` and
each draw as a deterministic state transition (a linear congruential step). -/
def fakerNext (s : Nat) : Nat × Nat :=
  let s' := (s * 1103515245 + 12345) % 2 ^ 31
  (s', s')

/-- Modelled from the spec: `faker.seed(123)` resets the generator state to a
value determined by the seed alone, discarding whatever state was there. -/
def fakerSeed (seed : Nat) : Nat := seed

/-- Modelled from the spec: a faker string draw (`fullName`, `email`,
`jobTitle`, `sentence`).  Each draw advances the generator state once and
produces a string that is a pure function of the drawn value. -/
def fakerDraw (tag : String) (s : Nat) : String × Nat :=
  let (v, s') := fakerNext s
  (tag ++ toString v, s')

/-- Modelled from the spec: `faker.helpers.arrayElement(xs)` draws one value
and returns the element of `xs` it indexes (uniform choice over the array). -/
def arrayElement (xs : List String) (s : Nat) : String × Nat :=
  let (v, s') := fakerNext s
  (xs.getD (v % xs.length) "", s')

/-- The fixed status enumeration (App.tsx line 103). -/
def statuses : List String := ["Active", "On Leave", "Remote"]

/-- The fixed department list (App.tsx line 104). -/
def departments : List String :=
  ["Engineering", "Product", "Sales", "Design", "Analytics", "Executive",
   "Marketing", "HR"]

/-- The record built for index `i` by the `Array.from` callback
(App.tsx lines 106-114), threading the faker state through the six draws in
source order. -/
def genEmployee (i : Nat) (s : Nat) : Employee × Nat :=
  let nm := fakerDraw "name" s
  let em := fakerDraw "email" nm.2
  let rl := fakerDraw "role" em.2
  let dept := arrayElement departments rl.2
  let desc := fakerDraw "description" dept.2
  let st := arrayElement statuses desc.2
  ({ id := i + 1, name := nm.1, email := em.1, role := rl.1,
     department := dept.1, description := desc.1, status := st.1 }, st.2)

/-- `Array.from({ length: count }, (_, i) => ...)` evaluated in index order,
starting at index `i`, threading the faker state. -/
def genList : Nat → Nat → Nat → List Employee × Nat
  | 0, _, s => ([], s)
  | n + 1, i, s =>
    let p := genEmployee i s
    let rest := genList n (i + 1) p.2
    (p.1 :: rest.1, rest.2)

/-- `generateEmployees` (App.tsx lines 101-115): first `faker.seed(123)`
resets the generator state — so the incoming state `s0` is discarded — then
the `count` records are built in index order. -/
def generateEmployees (count : Nat) (s0 : Nat) : List Employee × Nat :=
  let _ := s0
  genList count 0 (fakerSeed 123)

/- ======================= Status cell ======================= -/

/-- The `colorMap` object of the status cell renderer (App.tsx lines
180-184): a lookup with exactly the three keys `Active`, `On Leave`,
`Remote`.  In JavaScript, indexing any other key yields `undefined`,
modelled as `none`. -/
def colorMap (status : String) : Option String :=
  if status = "Active" then some "green"
  else if status = "On Leave" then some "yellow"
  else if status = "Remote" then some "blue"
  else none

/-- The rendered `Badge` of the status cell (App.tsx lines 185-189): its
`color` prop is `colorMap[status]` (possibly `undefined`) and its child is the
raw status value. -/
structure Badge where
  color : Option String
  label : String
deriving DecidableEq

/-- The status cell renderer (App.tsx lines 178-190): a total function — it
returns a `Badge` for every status value, with the raw value as label and the
looked-up color (or `none` when the key is unmapped). -/
def statusCell (status : String) : Badge :=
  { color := colorMap status, label := status }

/- ======================= Virtualizer padding ======================= -/

/-- A virtual item as reported by `rowVirtualizer.getVirtualItems()`: its row
index, start offset and end offset.  Offsets are JS numbers, modelled as
integers. -/
structure VirtualItem where
  index : Nat
  start : Int
  stop : Int
deriving DecidableEq

/-- `paddingTop` (App.tsx line 227):
`virtualRows.length > 0 ? virtualRows[0]?.start || 0 : 0`. -/
def paddingTop (virtualRows : List VirtualItem) : Int :=
  if virtualRows.length > 0 then
    ((virtualRows.head?).map (·.start)).getD 0
  else 0

/-- `paddingBottom` (App.tsx lines 228-230):
`virtualRows.length > 0 ? totalSize - (virtualRows[len-1]?.end || 0) : 0`. -/
def paddingBottom (virtualRows : List VirtualItem) (totalSize : Int) : Int :=
  if virtualRows.length > 0 then
    totalSize - (((virtualRows.getLast?).map (·.stop)).getD 0)
  else 0

/- ======================= Sorting ======================= -/

/-- A column sort direction, ascending or descending. -/
inductive SortDirection where
  | asc
  | desc
deriving DecidableEq

/-- Modelled from the spec: the sort state cycle of the external table-state
engine's header toggle handler — "header click → toggle sort on that column,
cycling ascending → descending → unsorted". -/
def toggleSorting : Option SortDirection → Option SortDirection
  | none => some .asc
  | some .asc => some .desc
  | some .desc => none

/-- The sort state reached after `n` header clicks starting unsorted. -/
def sortAfterClicks (n : Nat) : Option SortDirection :=
  toggleSorting^[n] none

/-- Modelled from the spec: the external engine's sorted row model for one
column with accessor `key` — unsorted returns the rows in generation order; a
direction sorts them stably by the column's values, with the comparator
inverted for descending. -/
def sortedRowModel (key : Employee → String) (dir : Option SortDirection)
    (rows : List Employee) : List Employee :=
  match dir with
  | none => rows
  | some .asc => rows.insertionSort (fun a b => key a ≤ key b)
  | some .desc => rows.insertionSort (fun a b => key b ≤ key a)

/- ======================= Theorems ======================= -/

/-- **C1.** For every text content `T` rendered by `Ellipsis`, after a
measurement of the attached element the tooltip disclosure is present if and
only if the measured element overflows (scroll width exceeds client width),
and when present its label is exactly `T`; when not overflowing the text is
rendered alone, with no tooltip. -/
theorem ellipsis_tooltip_iff_overflow (T : String) (el : Element) (s0 : Bool) :
    (ellipsisRender T (checkOverflow (some el) s0)
        = Rendered.tooltip T T ↔ el.clientWidth < el.scrollWidth)
    ∧ (ellipsisRender T (checkOverflow (some el) s0)
        = Rendered.plain T ↔ el.scrollWidth ≤ el.clientWidth) := by
  simp only [checkOverflow, ellipsisRender]
  by_cases h : el.clientWidth < el.scrollWidth <;>
    simp [h, Nat.not_lt.mp, gt_iff_lt]

/-- **C2.** The `isOverflowing` state starts at `fits` (false); a measurement
of a zero-sized element sets the state to not overflowing regardless of the
previous state; with no element attached the measurement leaves the state
unchanged, so a fresh instance never reports a false positive. -/
theorem overflow_measurement_guarded :
    initialIsOverflowing = false
    ∧ (∀ s0 : Bool, checkOverflow (some ⟨0, 0⟩) s0 = false)
    ∧ (∀ s0 : Bool, checkOverflow none s0 = s0)
    ∧ checkOverflow none initialIsOverflowing = false := by
  refine ⟨rfl, fun s0 => rfl, fun s0 => rfl, rfl⟩

/-- **C3.** Every wired `Ellipsis` event — the text content (children)
changing, an element-level resize notification, and a window resize — runs
the overflow measurement, and indeed every event of the component's lifecycle
does. -/
theorem ellipsis_remeasures_on_all_triggers (ref : Option Element) (s : Bool) :
    ellipsisStep ref s EllipsisEvent.childrenChanged = checkOverflow ref s
    ∧ ellipsisStep ref s EllipsisEvent.elementResize = checkOverflow ref s
    ∧ ellipsisStep ref s EllipsisEvent.windowResize = checkOverflow ref s
    ∧ ∀ ev : EllipsisEvent, ellipsisStep ref s ev = checkOverflow ref s := by
  refine ⟨rfl, rfl, rfl, fun ev => ?_⟩
  cases ev <;> rfl

/-- **C4.** The effect registers exactly one element-size observer and
exactly one window resize listener per mounted instance, and the cleanup
releases both, returning the instance to the no-resources state. -/
theorem effect_registers_and_releases (ref : Option Element) :
    (effectSetup ref).observerConnected = true
    ∧ (effectSetup ref).windowListeners = 1
    ∧ (effectSetup ref).observedElements ≤ 1
    ∧ effectCleanup (effectSetup ref) = noResources := by
  cases ref <;> simp [effectSetup, effectCleanup, noResources]

/-- **C5.** The status color map has exactly the three entries `Active`,
`On Leave` and `Remote`; for any status outside these three, the lookup
yields no color and the renderer still returns a badge whose label is the raw
status value — it fails safe instead of crashing. -/
theorem status_color_map_exact_and_failsafe :
    colorMap "Active" = some "green"
    ∧ colorMap "On Leave" = some "yellow"
    ∧ colorMap "Remote" = some "blue"
    ∧ (∀ s : String, s ∉ statuses → colorMap s = none)
    ∧ (∀ s : String, (statusCell s).label = s)
    ∧ (∀ s : String, s ∉ statuses →
        statusCell s = { color := none, label := s }) := by
  refine ⟨rfl, rfl, rfl, ?_, fun s => rfl, ?_⟩ <;>
  · intro s hs
    simp only [statuses, List.mem_cons, List.not_mem_nil, or_false,
      not_or] at hs
    obtain ⟨h1, h2, h3⟩ := hs
    simp [statusCell, colorMap, h1, h2, h3]

/-- Unfolding of `genList` at zero. -/
theorem genList_zero (i s : Nat) : genList 0 i s = ([], s) := rfl

/-- Unfolding of the record list built by `genList` at a successor count. -/
theorem genList_succ_fst (n i s : Nat) :
    (genList (n + 1) i s).1
      = (genEmployee i s).1 :: (genList n (i + 1) (genEmployee i s).2).1 := rfl

/-- The record built for index `i` has identifier `i + 1`. -/
theorem genEmployee_id (i s : Nat) : (genEmployee i s).1.id = i + 1 := by
  simp only [genEmployee]

/-- The status of the record built for index `i` is a faker array pick from
the fixed status enumeration. -/
theorem genEmployee_status (i s : Nat) :
    ∃ s5 : Nat, (genEmployee i s).1.status = (arrayElement statuses s5).1 := by
  refine ⟨(fakerDraw "description" (arrayElement departments (fakerDraw "role"
    (fakerDraw "email" (fakerDraw "name" s).2).2).2).2).2, ?_⟩
  simp only [genEmployee]

/-- The identifiers of the records built from index `i` are
`i + 1, i + 2, ...` in order. -/
theorem genList_map_id (n : Nat) : ∀ i s : Nat,
    ((genList n i s).1.map (fun e => e.id)) = List.range' (i + 1) n := by
  induction n with
  | zero => intro i s; rfl
  | succ n ih =>
    intro i s
    rw [genList_succ_fst, List.map_cons, ih, List.range'_succ, genEmployee_id]

/-- A faker array pick is always an element of the array, when the array is
non-empty. -/
theorem arrayElement_mem (xs : List String) (hxs : xs ≠ []) (s : Nat) :
    (arrayElement xs s).1 ∈ xs := by
  have hlen : 0 < xs.length := List.length_pos.mpr hxs
  have hlt : (fakerNext s).1 % xs.length < xs.length :=
    Nat.mod_lt _ hlen
  show xs.getD ((fakerNext s).1 % xs.length) "" ∈ xs
  rw [List.getD_eq_getElem?_getD, List.getElem?_eq_getElem hlt]
  exact List.getElem_mem hlt

/-- Every record built by `genList` has a status in the fixed enumeration. -/
theorem genList_status_mem (n : Nat) : ∀ i s : Nat,
    ∀ e ∈ (genList n i s).1, e.status ∈ statuses := by
  induction n with
  | zero => intro i s e he; simp [genList_zero] at he
  | succ n ih =>
    intro i s e he
    rw [genList_succ_fst, List.mem_cons] at he
    rcases he with rfl | he
    · obtain ⟨s5, hst⟩ := genEmployee_status i s
      rw [hst]
      exact arrayElement_mem statuses (by simp [statuses]) s5
    · exact ih _ _ e he

/-- **C6.** Record generation is deterministic: `generateEmployees` seeds the
pseudo-random source with the fixed seed 123 on each call, so two invocations
with the same count — whatever generator state each starts from — yield
identical record lists. -/
theorem generateEmployees_deterministic (count s1 s2 : Nat) :
    (generateEmployees count s1).1 = (generateEmployees count s2).1 := rfl

/-- **C8.** For every count `n` the generator returns exactly `n` records,
and the sequence of their identifiers in generation order is exactly
`1, 2, ..., n` (the record at 0-based position `i` has identifier `i + 1`). -/
theorem generateEmployees_ids_sequential (n s : Nat) :
    (generateEmployees n s).1.length = n
    ∧ ((generateEmployees n s).1.map (fun e => e.id)) = List.range' 1 n := by
  have h : ((genList n 0 (fakerSeed 123)).1.map (fun e => e.id))
      = List.range' 1 n := genList_map_id n 0 (fakerSeed 123)
  constructor
  · have := congrArg List.length h
    simpa [generateEmployees] using this
  · simpa [generateEmployees] using h

/-- **C10.** Every generated record's status is one of the three values that
key the status cell's color map, so the color lookup succeeds on all
generated data. -/
theorem generated_status_always_mapped (n s : Nat) :
    ∀ e ∈ (generateEmployees n s).1,
      e.status ∈ statuses ∧ (colorMap e.status).isSome = true := by
  intro e he
  have hmem : e.status ∈ statuses :=
    genList_status_mem n 0 (fakerSeed 123) e he
  refine ⟨hmem, ?_⟩
  simp only [statuses, List.mem_cons, List.not_mem_nil, or_false] at hmem
  rcases hmem with h | h | h <;> simp [colorMap, h]

/-- Witness for **C10** at the concrete input `n = 1`, `s = 0`: the single
generated record's status is mapped. -/
theorem generated_status_always_mapped_witness :
    ((generateEmployees 1 0).1.headI).status ∈ statuses
    ∧ (colorMap ((generateEmployees 1 0).1.headI).status).isSome = true :=
  generated_status_always_mapped 1 0 ((generateEmployees 1 0).1.headI)
    (by decide)

/-- **C7.** The spacer rows preserve the total scrollable height: when there
are no virtual rows both paddings are zero, and otherwise the top padding is
the first virtual row's start offset, the bottom padding is the total size
minus the last virtual row's end offset, and top padding + the extent of the
materialized rows + bottom padding equals the virtualizer's total size. -/
theorem spacers_preserve_total_size (vrs : List VirtualItem) (total : Int) :
    (vrs = [] → paddingTop vrs = 0 ∧ paddingBottom vrs total = 0)
    ∧ (∀ f l : VirtualItem, vrs.head? = some f → vrs.getLast? = some l →
        paddingTop vrs = f.start
        ∧ paddingBottom vrs total = total - l.stop
        ∧ paddingTop vrs + (l.stop - f.start) + paddingBottom vrs total
            = total) := by
  constructor
  · rintro rfl
    simp [paddingTop, paddingBottom]
  · intro f l hf hl
    have hne : vrs ≠ [] := by
      intro h
      rw [h] at hf
      simp at hf
    have hlen : vrs.length > 0 := List.length_pos.mpr hne
    have ht : paddingTop vrs = f.start := by
      simp [paddingTop, hlen, hf]
    have hb : paddingBottom vrs total = total - l.stop := by
      simp [paddingBottom, hlen, hl]
    refine ⟨ht, hb, ?_⟩
    rw [ht, hb]
    ring

/-- Witness for **C7** at a concrete input: a two-item window
`[⟨0, 10, 63⟩, ⟨1, 63, 116⟩]` with total size 530. -/
theorem spacers_preserve_total_size_witness :
    paddingTop [⟨0, 10, 63⟩, ⟨1, 63, 116⟩] = (10 : Int)
    ∧ paddingBottom [⟨0, 10, 63⟩, ⟨1, 63, 116⟩] 530 = (530 : Int) - 116
    ∧ paddingTop [⟨0, 10, 63⟩, ⟨1, 63, 116⟩]
        + ((116 : Int) - 10)
        + paddingBottom [⟨0, 10, 63⟩, ⟨1, 63, 116⟩] 530 = 530 :=
  (spacers_preserve_total_size [⟨0, 10, 63⟩, ⟨1, 63, 116⟩] 530).2
    ⟨0, 10, 63⟩ ⟨1, 63, 116⟩ (by rfl) (by rfl)

/-- For any column accessor, the values of the rows sorted with the inverted
(descending) comparator are the reverse of the values of the rows sorted with
the ascending comparator. -/
theorem sort_desc_values_reverse (key : Employee → String)
    (rows : List Employee) :
    ((rows.insertionSort (fun a b => key b ≤ key a)).map key)
      = (((rows.insertionSort (fun a b => key a ≤ key b)).map key)).reverse := by
  haveI : IsTotal Employee (fun a b => key a ≤ key b) :=
    ⟨fun a b => le_total (key a) (key b)⟩
  haveI : IsTrans Employee (fun a b => key a ≤ key b) :=
    ⟨fun _ _ _ hab hbc => le_trans hab hbc⟩
  haveI : IsTotal Employee (fun a b => key b ≤ key a) :=
    ⟨fun a b => le_total (key b) (key a)⟩
  haveI : IsTrans Employee (fun a b => key b ≤ key a) :=
    ⟨fun _ _ _ hab hbc => le_trans hbc hab⟩
  have sA : ((rows.insertionSort (fun a b => key a ≤ key b)).map key).Sorted
      (· ≤ ·) := by
    rw [List.Sorted, List.pairwise_map]
    exact List.sorted_insertionSort _ rows
  have sB : ((rows.insertionSort (fun a b => key b ≤ key a)).map key).Sorted
      (fun x y : String => y ≤ x) := by
    rw [List.Sorted, List.pairwise_map]
    exact List.sorted_insertionSort _ rows
  have sBrev : (((rows.insertionSort (fun a b => key b ≤ key a)).map
      key).reverse).Sorted (· ≤ ·) := by
    rw [List.Sorted, List.pairwise_reverse]
    exact sB
  have hperm : List.Perm
      (((rows.insertionSort (fun a b => key b ≤ key a)).map key).reverse)
      ((rows.insertionSort (fun a b => key a ≤ key b)).map key) := by
    refine (List.reverse_perm _).trans ?_
    exact ((List.perm_insertionSort _ rows).map key).trans
      ((List.perm_insertionSort _ rows).map key).symm
  have h := List.eq_of_perm_of_sorted hperm sBrev sA
  rw [← h, List.reverse_reverse]

/-- **C9.** Header clicks cycle the sort state unsorted → ascending →
descending → unsorted; the column's values after two clicks are the reverse
of the values after one click; and after three clicks the rows are back in
the original generation order. -/
theorem sort_toggle_cycle (rows : List Employee) (key : Employee → String) :
    toggleSorting none = some SortDirection.asc
    ∧ toggleSorting (some SortDirection.asc) = some SortDirection.desc
    ∧ toggleSorting (some SortDirection.desc) = none
    ∧ ((sortedRowModel key (sortAfterClicks 2) rows).map key
        = ((sortedRowModel key (sortAfterClicks 1) rows).map key).reverse)
    ∧ sortedRowModel key (sortAfterClicks 3) rows = rows := by
  have h1 : sortAfterClicks 1 = some SortDirection.asc := rfl
  have h2 : sortAfterClicks 2 = some SortDirection.desc := rfl
  have h3 : sortAfterClicks 3 = none := rfl
  refine ⟨rfl, rfl, rfl, ?_, ?_⟩
  · rw [h1, h2]
    simp only [sortedRowModel]
    exact sort_desc_values_reverse key rows
  · rw [h3]
    rfl

end App
